import Mathlib

/-!
Shallow embedding of the vintages matrix processor (`SeriesVisualizer` in
`series.py`): the revision table data model, the fetch orchestration and the
derived transforms, together with theorems checking the specification's
claims about them.

Dates are encoded as natural numbers `yyyymmdd`, so that the calendar order
of dates coincides with the order on `Nat`; numeric cell values are `Int`
(the claims only involve exact equality and subtraction); an absent cell
(`NaN` in the source) is `none`.
-/

abbrev Date := Nat
abbrev Value := Int

/-- A revision table ("vintages matrix", `df_reversed` in the source): rows
are observation dates, columns are vintage dates, each cell optionally holds
the value known for that observation date as of that vintage. -/
structure RevisionTable where
  rowLabels : List Date
  colLabels : List Date
  cells : List (List (Option Value))
deriving Repr, DecidableEq

/-- Ordering of label/payload pairs by label; `sort_index(ascending=True)`
sorts a labelled axis by this relation. -/
def keyLE {α : Type} (a b : Date × α) : Prop := a.1 ≤ b.1

instance {α : Type} : DecidableRel (@keyLE α) := fun a b => Nat.decLe a.1 b.1

instance {α : Type} : IsTotal (Date × α) keyLE := ⟨fun a b => Nat.le_total a.1 b.1⟩

instance {α : Type} : IsTrans (Date × α) keyLE := ⟨fun _ _ _ => Nat.le_trans⟩

/-- Sort a labelled axis ascending by label. -/
def sortPairs {α : Type} (l : List (Date × α)) : List (Date × α) :=
  List.insertionSort keyLE l

/-- Reorder one row of cells into ascending-vintage column order: the effect
of `df.sort_index(axis=1, ascending=True)` on a single row whose cells are
labelled by `cols`. -/
def sortedRow (cols : List Date) (row : List (Option Value)) : List (Option Value) :=
  (sortPairs (cols.zip row)).map (·.2)

/-- Column-sort a whole table (`df.sort_index(axis=1, ascending=True)`). -/
def sortCols (t : RevisionTable) : RevisionTable :=
  { rowLabels := t.rowLabels
    colLabels := (sortPairs (t.colLabels.map fun c => (c, ()))).map (·.1)
    cells := t.cells.map (sortedRow t.colLabels) }

/-- Whether cell `i` of a row receives the lavender background in
`highlight_vintage_changes`: `pd.notna(values[i])` holds and the preceding
cell is NaN or holds a different value. -/
def changedAt (values : List (Option Value)) (i : Nat) : Bool :=
  match values[i]? with
  | some (some v) =>
    match values[i - 1]? with
    | some none => true
    | some (some p) => decide (v ≠ p)
    | none => false
  | _ => false

/-- Model of `highlight_vintage_changes` (series.py:109-116): the per-row style list;
`styles` starts all-empty and the loop runs over indices `1 ≤ i < len(values)`
only, so index `0` is never tagged. -/
def highlight_vintage_changes (values : List (Option Value)) : List Bool :=
  (List.range values.length).map fun i => if 1 ≤ i then changedAt values i else false

/-- Model of `style_vintages_table` (series.py:101-118): the column-sorted table
together with the per-row change-highlight styles; `none` when the stored
table is absent. -/
def style_vintages_table (t? : Option RevisionTable) :
    Option (RevisionTable × List (List Bool)) :=
  match t? with
  | none => none
  | some t =>
    let df_sorted := sortCols t
    some (df_sorted, df_sorted.cells.map highlight_vintage_changes)

theorem highlight_length (values : List (Option Value)) :
    (highlight_vintage_changes values).length = values.length := by
  simp [highlight_vintage_changes]

theorem highlight_getElem? (values : List (Option Value)) (i : Nat)
    (h : i < values.length) :
    (highlight_vintage_changes values)[i]? =
      some (if 1 ≤ i then changedAt values i else false) := by
  simp [highlight_vintage_changes, List.getElem?_map, List.getElem?_range, h]

/-- C1: a cell at index `i ≥ 1` is tagged "changed" exactly when it holds a
value and the preceding cell is absent or holds a different value (exact
equality); index `0` is never tagged. Absent-to-present transitions satisfy
the left disjunct, hence are always tagged. -/
theorem changeHighlighter_spec (values : List (Option Value)) (i : Nat)
    (h1 : 1 ≤ i) (h2 : i < values.length) :
    ((highlight_vintage_changes values)[i]? = some true ↔
      ∃ v, values[i]? = some (some v) ∧
        (values[i - 1]? = some none ∨
          ∃ p, values[i - 1]? = some (some p) ∧ v ≠ p)) ∧
    (highlight_vintage_changes values)[0]? ≠ some true := by
  constructor
  · rw [highlight_getElem? values i h2, if_pos h1]
    have hprev : i - 1 < values.length := lt_of_le_of_lt (Nat.sub_le i 1) h2
    constructor
    · intro htag
      have htag' : changedAt values i = true := by simpa using htag
      unfold changedAt at htag'
      cases hcell : values[i]? with
      | none => rw [hcell] at htag'; simp at htag'
      | some c =>
        cases c with
        | none => rw [hcell] at htag'; simp at htag'
        | some v =>
          refine ⟨v, rfl, ?_⟩
          rw [hcell] at htag'
          cases hp : values[i - 1]? with
          | none => rw [hp] at htag'; simp at htag'
          | some c' =>
            cases c' with
            | none => exact Or.inl rfl
            | some p =>
              rw [hp] at htag'
              simp only [decide_eq_true_eq] at htag'
              exact Or.inr ⟨p, rfl, htag'⟩
    · rintro ⟨v, hcell, hcase⟩
      have : changedAt values i = true := by
        unfold changedAt
        rw [hcell]
        rcases hcase with hp | ⟨p, hp, hne⟩
        · rw [hp]
        · rw [hp]; simpa using hne
      simpa using this
  · intro h0
    rcases Nat.eq_zero_or_pos values.length with hz | hpos
    · rw [List.getElem?_eq_none (by omega)] at h0
      exact Option.noConfusion h0
    · rw [highlight_getElem? values 0 hpos] at h0
      simp at h0

/-- Witness for `changeHighlighter_spec` at a concrete row: on
`[100, NaN, 50]` the cell at index `2` (an absent-to-present transition) is
tagged and index `0` is not. -/
theorem changeHighlighter_spec_witness :
    ((highlight_vintage_changes [some 100, none, some 50])[2]? = some true ↔
      ∃ v, ([some 100, none, some 50] : List (Option Value))[2]? = some (some v) ∧
        (([some 100, none, some 50] : List (Option Value))[2 - 1]? = some none ∨
          ∃ p, ([some 100, none, some 50] : List (Option Value))[2 - 1]? = some (some p) ∧
            v ≠ p)) ∧
    (highlight_vintage_changes [some 100, none, some 50])[0]? ≠ some true :=
  changeHighlighter_spec [some 100, none, some 50] 2 (by decide) (by decide)

/-- NaN-propagating cell subtraction: the difference of two cells is absent
when either operand is absent. -/
def optSub (a b : Option Value) : Option Value :=
  match a, b with
  | some x, some y => some (x - y)
  | _, _ => none

/-- Column-wise first difference of one row (`df.diff(axis=1)`): cell `i`
becomes `v i - v (i-1)` and the first cell becomes NaN. -/
def rowDiff : List (Option Value) → List (Option Value)
  | [] => []
  | x :: xs => none :: List.zipWith optSub xs (x :: xs)

/-- Data of `plot_vintages_heatmap` (series.py:120-128): the consecutive-vintage
difference of the column-sorted table, row by row. -/
def plot_vintages_heatmap (t : RevisionTable) : List (List (Option Value)) :=
  t.cells.map fun row => rowDiff (sortedRow t.colLabels row)

theorem rowDiff_length (s : List (Option Value)) : (rowDiff s).length = s.length := by
  cases s with
  | nil => rfl
  | cons x xs => simp [rowDiff]

theorem rowDiff_getElem?_of_pos (s : List (Option Value)) (i : Nat) (h : 1 ≤ i) :
    (rowDiff s)[i]? =
      match s[i]?, s[i - 1]? with
      | some a, some b => some (optSub a b)
      | _, _ => none := by
  obtain ⟨j, rfl⟩ : ∃ j, i = j + 1 := ⟨i - 1, by omega⟩
  cases s with
  | nil => simp [rowDiff]
  | cons x xs =>
    have hstep : (rowDiff (x :: xs))[j + 1]? = (List.zipWith optSub xs (x :: xs))[j]? := by
      simp [rowDiff]
    rw [hstep, List.getElem?_zipWith']
    simp only [Nat.add_sub_cancel, List.getElem?_cons_succ]
    cases hx : xs[j]? <;> cases hy : (x :: xs)[j]? <;> simp [hx, hy]

theorem sortedRow_length (cols : List Date) (row : List (Option Value))
    (h : row.length = cols.length) : (sortedRow cols row).length = cols.length := by
  have hperm := List.perm_insertionSort keyLE (cols.zip row)
  simp [sortedRow, sortPairs, hperm.length_eq, h]

/-- C3: the consecutive-vintage difference table has one row per table row of
the same width, its first column is absent in every row, and every later cell
is the NaN-propagating difference of the two adjacent cells of the
column-sorted row. -/
theorem consecutiveDiff_spec (t : RevisionTable) (j : Nat)
    (hrow : (t.cells.getD j []).length = t.colLabels.length) :
    (plot_vintages_heatmap t).length = t.cells.length ∧
    ((plot_vintages_heatmap t).getD j []).length = (t.cells.getD j []).length ∧
    (∀ v : Value, ((plot_vintages_heatmap t).getD j [])[0]? ≠ some (some v)) ∧
    ∀ i, 1 ≤ i →
      ((plot_vintages_heatmap t).getD j [])[i]? =
        match (sortedRow t.colLabels (t.cells.getD j []))[i]?,
              (sortedRow t.colLabels (t.cells.getD j []))[i - 1]? with
        | some a, some b => some (optSub a b)
        | _, _ => none := by
  have hout : (plot_vintages_heatmap t).getD j [] =
      rowDiff (sortedRow t.colLabels (t.cells.getD j [])) := by
    by_cases hj : j < t.cells.length
    · simp [plot_vintages_heatmap, List.getD, List.getElem?_map,
        List.getElem?_eq_getElem hj]
    · have h1 : (plot_vintages_heatmap t).getD j [] = [] := by
        apply List.getD_eq_default
        simpa [plot_vintages_heatmap] using hj
      have h2 : t.cells.getD j [] = [] := List.getD_eq_default _ _ (by omega)
      rw [h1, h2]
      simp [sortedRow, sortPairs, rowDiff]
  refine ⟨by simp [plot_vintages_heatmap], ?_, ?_, ?_⟩
  · rw [hout, rowDiff_length, sortedRow_length _ _ hrow, hrow]
  · intro v
    rw [hout]
    cases hs : sortedRow t.colLabels (t.cells.getD j []) with
    | nil => simp [rowDiff]
    | cons x xs => simp [rowDiff]
  · intro i hi
    rw [hout, rowDiff_getElem?_of_pos _ _ hi]

/-- Witness for `consecutiveDiff_spec` on the spec's worked scenario table
(rows 2020-01-01 and 2020-02-01, vintages 2021-01-01 and 2021-02-01): row 0
of the heatmap source is `[NaN, 5]`. -/
theorem consecutiveDiff_spec_witness :
    (plot_vintages_heatmap
        { rowLabels := [20200101, 20200201]
          colLabels := [20210101, 20210201]
          cells := [[some 100, some 105], [none, some 50]] }).length = 2 ∧
    ((plot_vintages_heatmap
        { rowLabels := [20200101, 20200201]
          colLabels := [20210101, 20210201]
          cells := [[some 100, some 105], [none, some 50]] }).getD 0 [])[1]? =
      some (some 5) := by
  have h := consecutiveDiff_spec
    { rowLabels := [20200101, 20200201]
      colLabels := [20210101, 20210201]
      cells := [[some 100, some 105], [none, some 50]] } 0 (by decide)
  refine ⟨by simpa using h.1, ?_⟩
  rw [h.2.2.2 1 (by decide)]
  decide

/-- Model of `row.dropna().iloc[0]`, `row.dropna().iloc[-1]` and their difference
(series.py:208-210 for one row): last present value minus first present
value, `none` when every cell of the row is absent. -/
def firstLastDiff (row : List (Option Value)) : Option Value :=
  match row.filterMap id with
  | [] => none
  | x :: xs => ((x :: xs).getLast?).map fun l => l - x

/-- Specification reading: the value at the first non-absent column of the
row, in column order. -/
def firstPresent : List (Option Value) → Option Value
  | [] => none
  | a :: l =>
    match a with
    | some v => some v
    | none => firstPresent l

/-- Specification reading: the value at the last non-absent column of the
row, in column order. -/
def lastPresent : List (Option Value) → Option Value
  | [] => none
  | a :: l =>
    match lastPresent l with
    | some v => some v
    | none => a

/-- Specification reading of First-vs-Last: last non-absent value minus
first non-absent value, NaN when the row has no non-absent cell. -/
def specLastMinusFirst (row : List (Option Value)) : Option Value :=
  match lastPresent row, firstPresent row with
  | some l, some f => some (l - f)
  | _, _ => none

/-- Data of `plot_vintage_differences` (series.py:203-212): per-row last-minus-
first over the column-sorted table, indexed by observation date and finally
sorted ascending by date (`diff.sort_index()`). -/
def plot_vintage_differences (t : RevisionTable) : List (Date × Option Value) :=
  sortPairs (t.rowLabels.zip
    (t.cells.map fun row => firstLastDiff (sortedRow t.colLabels row)))

theorem head?_filterMap_id (l : List (Option Value)) :
    (l.filterMap id).head? = firstPresent l := by
  induction l with
  | nil => rfl
  | cons a l ih =>
    cases a with
    | none => simpa [firstPresent] using ih
    | some v => simp [firstPresent]

theorem lastPresent_cons (a : Option Value) (l : List (Option Value)) :
    lastPresent (a :: l) =
      match lastPresent l with
      | some v => some v
      | none => a := rfl

theorem getLast?_filterMap_id (l : List (Option Value)) :
    (l.filterMap id).getLast? = lastPresent l := by
  induction l with
  | nil => rfl
  | cons a l ih =>
    rw [lastPresent_cons, ← ih]
    cases a with
    | none =>
      rw [show ((none : Option Value) :: l).filterMap id = l.filterMap id by simp]
      cases (l.filterMap id).getLast? <;> rfl
    | some v =>
      rw [show ((some v) :: l).filterMap (id : Option Value → Option Value) =
        v :: l.filterMap id by simp]
      cases hm : l.filterMap id with
      | nil => simp
      | cons y ys =>
        rw [List.getLast?_cons_cons]
        cases hly : (y :: ys).getLast? with
        | none =>
          rw [List.getLast?_eq_none_iff] at hly
          exact absurd hly (by simp)
        | some w => rfl

theorem firstLastDiff_eq_spec (row : List (Option Value)) :
    firstLastDiff row = specLastMinusFirst row := by
  unfold firstLastDiff specLastMinusFirst
  cases hm : row.filterMap id with
  | nil =>
    have hl : lastPresent row = none := by
      rw [← getLast?_filterMap_id, hm]; rfl
    rw [hl]
  | cons x xs =>
    have hf : firstPresent row = some x := by
      rw [← head?_filterMap_id, hm]; rfl
    have hl : lastPresent row = (x :: xs).getLast? := by
      rw [← getLast?_filterMap_id, hm]
    cases hlast : (x :: xs).getLast? with
    | none =>
      rw [List.getLast?_eq_none_iff] at hlast
      exact absurd hlast (by simp)
    | some w =>
      rw [hf, hl, hlast]
      show ((x :: xs).getLast?).map (fun l => l - x) = _
      rw [hlast]
      rfl

/-- C2: the first-vs-last difference series has one entry per table row, each
entry is the value at the last non-absent column minus the value at the first
non-absent column of the ascending-column-sorted row (`none`, i.e. NaN, when
the row has no non-absent cell), and the series is sorted ascending by
observation date. -/
theorem firstVsLast_spec (t : RevisionTable) (hc : 1 ≤ t.colLabels.length)
    (hwf : t.cells.length = t.rowLabels.length) :
    ((plot_vintage_differences t).map Prod.fst).Sorted (· ≤ ·) ∧
    (plot_vintage_differences t).length = t.rowLabels.length ∧
    (plot_vintage_differences t).Perm
      (t.rowLabels.zip
        (t.cells.map fun row => specLastMinusFirst (sortedRow t.colLabels row))) := by
  have hmap : (t.cells.map fun row => firstLastDiff (sortedRow t.colLabels row)) =
      t.cells.map fun row => specLastMinusFirst (sortedRow t.colLabels row) := by
    simp [firstLastDiff_eq_spec]
  have hperm : (plot_vintage_differences t).Perm
      (t.rowLabels.zip
        (t.cells.map fun row => specLastMinusFirst (sortedRow t.colLabels row))) := by
    rw [plot_vintage_differences, hmap]
    exact List.perm_insertionSort keyLE _
  refine ⟨?_, ?_, hperm⟩
  · have hs : (plot_vintage_differences t).Sorted keyLE :=
      List.sorted_insertionSort keyLE _
    exact hs.map Prod.fst (fun a b h => h)
  · rw [hperm.length_eq, List.length_zip, List.length_map, hwf, Nat.min_self]

/-- Witness for `firstVsLast_spec` on the spec's worked scenario table: the
result is `[(2020-01-01, 5), (2020-02-01, 0)]`, of length 2. -/
theorem firstVsLast_spec_witness :
    plot_vintage_differences
        { rowLabels := [20200101, 20200201]
          colLabels := [20210101, 20210201]
          cells := [[some 100, some 105], [none, some 50]] } =
      [(20200101, some 5), (20200201, some 0)] ∧
    (plot_vintage_differences
        { rowLabels := [20200101, 20200201]
          colLabels := [20210101, 20210201]
          cells := [[some 100, some 105], [none, some 50]] }).length = 2 :=
  ⟨by decide,
    (firstVsLast_spec
      { rowLabels := [20200101, 20200201]
        colLabels := [20210101, 20210201]
        cells := [[some 100, some 105], [none, some 50]] }
      (by decide) (by decide)).2.1⟩

/-- Numeric value of a decimal digit character, `none` otherwise. -/
def digit? (c : Char) : Option Nat :=
  if c.isDigit then some (c.toNat - 48) else none

/-- Model of `pd.to_datetime` on one axis label, restricted to ISO `YYYY-MM-DD`
strings: the date encoded as `yyyymmdd`, or `none` (the exception path of
the builder) for anything unparseable. -/
def parseDate (s : String) : Option Date :=
  match s.data with
  | [y1, y2, y3, y4, '-', m1, m2, '-', d1, d2] =>
    match digit? y1, digit? y2, digit? y3, digit? y4,
          digit? m1, digit? m2, digit? d1, digit? d2 with
    | some a, some b, some c, some d, some e, some f, some g, some h =>
      let m := e * 10 + f
      let dd := g * 10 + h
      if 1 ≤ m ∧ m ≤ 12 ∧ 1 ≤ dd ∧ dd ≤ 31 then
        some ((((a * 10 + b) * 10 + c) * 10 + d) * 10000 + m * 100 + dd)
      else none
    | _, _, _, _, _, _, _, _ => none
  | _ => none

/-- Parse every label of an axis; `none` as soon as one label fails, the way
`pd.to_datetime` raises on the whole axis. -/
def parseAll : List String → Option (List Date)
  | [] => some []
  | s :: ss =>
    match parseDate s, parseAll ss with
    | some d, some ds => some (d :: ds)
    | _, _ => none

/-- Union of the inner-mapping keys in first-appearance order: the row index
a dict-of-dicts `pd.DataFrame` gets. -/
def dedupFirst : List String → List String
  | [] => []
  | x :: xs => x :: (dedupFirst xs).filter (fun y => y ≠ x)

/-- The fixed observation-date cutoff `2014-03-01` of the builder. -/
def cutoffDate : Date := 20140301

/-- Model of `fetch_vintages_data` (series.py:40-59), given the provider mapping
(outer keys: vintage dates, i.e. columns; inner keys: observation dates):
build the table, parse both axes, sort the row index ascending and truncate
to observation dates from the cutoff on (`.loc['2014-03-01':]`). The column
axis keeps the provider's order. Any unparseable label takes the exception
path and leaves the table absent (`none`). -/
def rowStrings (raw : List (String × List (String × Value))) : List String :=
  dedupFirst (raw.flatMap fun p => p.2.map (·.1))

/-- The row index after parsing, ascending sort and the cutoff truncation,
each row still paired with its original string key for cell lookup. -/
def builtRows (raw : List (String × List (String × Value))) (rows : List Date) :
    List (Date × String) :=
  (sortPairs (rows.zip (rowStrings raw))).filter fun p => cutoffDate ≤ p.1

/-- The cells of one built row: one lookup per provider column, in provider
column order. -/
def builtCells (raw : List (String × List (String × Value))) (p : Date × String) :
    List (Option Value) :=
  raw.map fun c =>
    match c.2.find? (fun q => q.1 == p.2) with
    | some q => some q.2
    | none => none

def fetch_vintages_data (raw : List (String × List (String × Value))) :
    Option RevisionTable :=
  match parseAll (raw.map (·.1)), parseAll (rowStrings raw) with
  | some cols, some rows =>
    some
      { rowLabels := (builtRows raw rows).map (·.1)
        colLabels := cols
        cells := (builtRows raw rows).map (builtCells raw) }
  | _, _ => none

theorem parseAll_eq_none_of_mem {s : String} {l : List String}
    (hs : s ∈ l) (hp : parseDate s = none) : parseAll l = none := by
  induction l with
  | nil => cases hs
  | cons x xs ih =>
    rcases List.mem_cons.mp hs with rfl | hmem
    · unfold parseAll
      rw [hp]
    · unfold parseAll
      rw [ih hmem]
      cases parseDate x <;> rfl

theorem mem_dedupFirst {s : String} {l : List String} (hs : s ∈ l) :
    s ∈ dedupFirst l := by
  induction l with
  | nil => cases hs
  | cons x xs ih =>
    rcases List.mem_cons.mp hs with rfl | hmem
    · exact List.mem_cons_self _ _
    · by_cases hx : s = x
      · exact hx ▸ List.mem_cons_self _ _
      · exact List.mem_cons_of_mem _ (List.mem_filter.mpr ⟨ih hmem, by simp [hx]⟩)

/-- Counterexample to C4 as stated: on a provider mapping whose vintages
arrive in descending order, the builder's column axis is not sorted
ascending (only the row axis is sorted). -/
theorem revisionTableBuilder_colsUnsorted :
    (fetch_vintages_data
        [("2021-02-01", [("2020-01-01", 1)]),
         ("2021-01-01", [("2020-01-01", 2)])]).map RevisionTable.colLabels =
      some [20210201, 20210101] ∧
    ¬ List.Sorted (· ≤ ·) [20210201, 20210101] := by
  constructor
  · decide
  · decide

/-- C4 (amended): for every provider mapping all of whose labels parse, the
builder yields a table whose row and column labels are parsed date values,
whose row axis is sorted ascending and truncated to observation dates on or
after 2014-03-01, and whose column axis is the parsed provider-order label
list (it is not sorted). -/
theorem revisionTableBuilder_spec (raw : List (String × List (String × Value)))
    (t : RevisionTable) (h : fetch_vintages_data raw = some t) :
    t.rowLabels.Sorted (· ≤ ·) ∧
    (∀ d ∈ t.rowLabels, cutoffDate ≤ d) ∧
    parseAll (raw.map (·.1)) = some t.colLabels := by
  unfold fetch_vintages_data at h
  split at h
  case h_2 => exact absurd h (by simp)
  case h_1 cols rows hcols hrows =>
    have ht := (Option.some.injEq _ _).mp h
    subst ht
    refine ⟨?_, ?_, ?_⟩
    · have hs : (sortPairs (rows.zip (rowStrings raw))).Sorted keyLE :=
        List.sorted_insertionSort keyLE _
      have hsf : (builtRows raw rows).Sorted keyLE := by
        unfold builtRows
        exact hs.filter (fun p : Date × String => decide (cutoffDate ≤ p.1))
      exact hsf.map Prod.fst (fun a b hab => hab)
    · intro d hd
      simp only [builtRows, List.mem_map, List.mem_filter] at hd
      rcases hd with ⟨p, ⟨_, hp⟩, rfl⟩
      exact of_decide_eq_true hp
    · rw [hcols]

/-- A concrete two-column provider mapping whose vintages arrive in
descending order. -/
def builderExampleRaw : List (String × List (String × Value)) :=
  [("2021-02-01", [("2020-01-01", 1)]), ("2021-01-01", [("2020-01-01", 2)])]

/-- The table the builder produces from `builderExampleRaw`. -/
def builderExampleTable : RevisionTable :=
  { rowLabels := [20200101], colLabels := [20210201, 20210101],
    cells := [[some 1, some 2]] }

/-- Witness for `revisionTableBuilder_spec` on a concrete two-column
provider mapping. -/
theorem revisionTableBuilder_spec_witness :
    builderExampleTable.rowLabels.Sorted (· ≤ ·) ∧
    (∀ d ∈ builderExampleTable.rowLabels, cutoffDate ≤ d) ∧
    parseAll (builderExampleRaw.map (·.1)) = some builderExampleTable.colLabels :=
  revisionTableBuilder_spec builderExampleRaw builderExampleTable (by decide)

/-- Counterexample to C7 as stated: on an empty provider structure the
builder yields an empty table, not an explicit absent result. -/
theorem revisionTableBuilder_empty_counterexample :
    fetch_vintages_data [] ≠ none ∧
    fetch_vintages_data [] = some { rowLabels := [], colLabels := [], cells := [] } := by
  constructor
  · decide
  · decide

/-- C7 (amended): a malformed provider structure — one with an unparseable
vintage or observation label — yields an explicit absent result and does not
raise, while an empty structure yields an empty table (not an absent
result). -/
theorem revisionTableBuilder_malformed_spec (raw : List (String × List (String × Value)))
    (h : (∃ s ∈ raw.map (·.1), parseDate s = none) ∨
      ∃ s ∈ raw.flatMap fun p => p.2.map (·.1), parseDate s = none) :
    fetch_vintages_data raw = none ∧
    fetch_vintages_data [] = some { rowLabels := [], colLabels := [], cells := [] } := by
  refine ⟨?_, by decide⟩
  unfold fetch_vintages_data
  rcases h with ⟨s, hs, hp⟩ | ⟨s, hs, hp⟩
  · rw [parseAll_eq_none_of_mem hs hp]
  · rw [show parseAll (rowStrings raw) = none from
      parseAll_eq_none_of_mem (mem_dedupFirst hs) hp]
    cases parseAll (raw.map (·.1)) <;> rfl

/-- Witness for `revisionTableBuilder_malformed_spec` at a provider response
with an unparseable vintage label. -/
theorem revisionTableBuilder_malformed_spec_witness :
    fetch_vintages_data [("garbage", [("2020-01-01", 1)])] = none ∧
    fetch_vintages_data [] = some { rowLabels := [], colLabels := [], cells := [] } :=
  revisionTableBuilder_malformed_spec [("garbage", [("2020-01-01", 1)])]
    (Or.inl ⟨"garbage", by decide, by decide⟩)

/-- One (date, value) point of the latest-revision series. -/
structure TimePoint where
  date : Date
  value : Value
deriving Repr, DecidableEq

/-- Series metadata, as far as the core consumes it. -/
structure SeriesMetadata where
  name : String
deriving Repr, DecidableEq

/-- The latest-revision series payload returned by the provider. -/
structure SeriesData where
  time_points : List TimePoint
deriving Repr, DecidableEq

/-- The provider client: each of the three operations either returns data or
raises (`Except.error` is the raising outcome). -/
structure CeicClient where
  metadataResult : Except String SeriesMetadata
  seriesDataResult : Except String SeriesData
  vintagesResult : Except String (List (String × List (String × Value)))

/-- The three artifact slots of a `SeriesVisualizer`. -/
structure VizState where
  metadata : Option SeriesMetadata
  series_data : Option SeriesData
  df_reversed : Option RevisionTable
deriving Repr, DecidableEq

/-- Model of `fetch_metadata` (series.py:24-30): any raised error is caught and the
slot left explicitly absent. -/
def fetch_metadata (c : CeicClient) : Option SeriesMetadata :=
  match c.metadataResult with
  | .ok m => some m
  | .error _ => none

/-- Model of `fetch_series_data` (series.py:32-38): any raised error is caught and
the slot left explicitly absent. -/
def fetch_series_data (c : CeicClient) : Option SeriesData :=
  match c.seriesDataResult with
  | .ok s => some s
  | .error _ => none

/-- The vintages fetch (series.py:40-59) as run by the orchestrator: a
raised provider call, like a failed build, leaves the slot absent. -/
def run_fetch_vintages (c : CeicClient) : Option RevisionTable :=
  match c.vintagesResult with
  | .ok raw => fetch_vintages_data raw
  | .error _ => none

/-- Model of `fetch_all_data` (series.py:61-70): the three independent fetches all
complete before control returns; each populates its own slot or leaves it
absent on failure. The function is total, so no failure propagates to the
caller. -/
def fetch_all_data (c : CeicClient) : VizState :=
  { metadata := fetch_metadata c
    series_data := fetch_series_data c
    df_reversed := run_fetch_vintages c }

/-- C5: a raising fetch leaves exactly its own artifact absent; a succeeding
metadata or latest-series fetch populates its slot, and a succeeding
vintages fetch hands the payload to the builder; the orchestrator always
returns a state. -/
theorem fetchOrchestrator_spec (c : CeicClient) :
    (∀ e, c.metadataResult = .error e → (fetch_all_data c).metadata = none) ∧
    (∀ e, c.seriesDataResult = .error e → (fetch_all_data c).series_data = none) ∧
    (∀ e, c.vintagesResult = .error e → (fetch_all_data c).df_reversed = none) ∧
    (∀ m, c.metadataResult = .ok m → (fetch_all_data c).metadata = some m) ∧
    (∀ s, c.seriesDataResult = .ok s → (fetch_all_data c).series_data = some s) ∧
    (∀ raw, c.vintagesResult = .ok raw →
      (fetch_all_data c).df_reversed = fetch_vintages_data raw) := by
  refine ⟨?_, ?_, ?_, ?_, ?_, ?_⟩ <;> intro x hx <;>
    simp [fetch_all_data, fetch_metadata, fetch_series_data, run_fetch_vintages, hx]

/-- The spec's failure scenario: the vintages call raises while the other
two fetches succeed. -/
def failingVintagesClient : CeicClient :=
  { metadataResult := .ok { name := "GDP" }
    seriesDataResult := .ok { time_points := [{ date := 20200101, value := 3 }] }
    vintagesResult := .error "network error" }

/-- Witness for `fetchOrchestrator_spec` on the scenario where only the
vintages fetch raises: revision table absent, the other artifacts
populated. -/
theorem fetchOrchestrator_spec_witness :
    (fetch_all_data failingVintagesClient).df_reversed = none ∧
    (fetch_all_data failingVintagesClient).metadata = some { name := "GDP" } ∧
    (fetch_all_data failingVintagesClient).series_data =
      some { time_points := [{ date := 20200101, value := 3 }] } :=
  ⟨(fetchOrchestrator_spec failingVintagesClient).2.2.1 "network error" rfl,
   (fetchOrchestrator_spec failingVintagesClient).2.2.2.1 { name := "GDP" } rfl,
   (fetchOrchestrator_spec failingVintagesClient).2.2.2.2.1
     { time_points := [{ date := 20200101, value := 3 }] } rfl⟩

/-- The column of the stored table under vintage label `d` (`df_str[d]`):
one cell per row, indexed by observation date. -/
def getColumn (t : RevisionTable) (d : Date) : List (Date × Option Value) :=
  t.rowLabels.zip (t.cells.map fun row => row.getD (t.colLabels.indexOf d) none)

/-- Model of `plot_vintage_comparison` (series.py:169-201): when either requested
label is missing (`None`), both are replaced by the first two stored columns
in their stored order — `None` when fewer than two columns exist; then both
labels are validated for membership and the two column series extracted. -/
def plot_vintage_comparison (t? : Option RevisionTable) (date1 date2 : Option Date) :
    Option (List (Date × Option Value) × List (Date × Option Value)) :=
  match t? with
  | none => none
  | some t =>
    match
      (if date1.isNone || date2.isNone then
        if t.colLabels.length < 2 then none
        else some (t.colLabels.getD 0 0, t.colLabels.getD 1 0)
      else some (date1.getD 0, date2.getD 0)) with
    | none => none
    | some (d1, d2) =>
      if d1 ∈ t.colLabels ∧ d2 ∈ t.colLabels then
        some (getColumn t d1, getColumn t d2)
      else none

/-- C6: with both labels supplied, if either is not among the stored
columns the comparison yields an explicit absent result. -/
theorem twoVintage_invalid_label (t : RevisionTable) (d1 d2 : Date)
    (h : d1 ∉ t.colLabels ∨ d2 ∉ t.colLabels) :
    plot_vintage_comparison (some t) (some d1) (some d2) = none := by
  have hn : ¬ (d1 ∈ t.colLabels ∧ d2 ∈ t.colLabels) := by
    rcases h with h | h <;> exact fun hc => h (by tauto)
  simp [plot_vintage_comparison, hn]

/-- Witness for `twoVintage_invalid_label`: requesting a label that is not a
column of the example table yields `none`. -/
theorem twoVintage_invalid_label_witness :
    plot_vintage_comparison (some builderExampleTable)
      (some 11111111) (some 20210101) = none :=
  twoVintage_invalid_label builderExampleTable 11111111 20210101 (Or.inl (by decide))

theorem getD_mem_of_lt (l : List Date) (n : Nat) (h : n < l.length) :
    l.getD n 0 ∈ l := by
  rw [List.getD_eq_getElem?_getD, List.getElem?_eq_getElem h]
  exact List.getElem_mem h

/-- C9: when either requested label is missing, the comparison silently
replaces both labels by the first two stored columns in their stored
(provider, not ascending-sorted) order, and yields an absent result exactly
when the table has fewer than two columns. -/
theorem twoVintage_default_columns (t : RevisionTable) (date1 date2 : Option Date)
    (h : date1.isNone ∨ date2.isNone) :
    (t.colLabels.length < 2 → plot_vintage_comparison (some t) date1 date2 = none) ∧
    (2 ≤ t.colLabels.length →
      plot_vintage_comparison (some t) date1 date2 =
        some (getColumn t (t.colLabels.getD 0 0), getColumn t (t.colLabels.getD 1 0))) := by
  have hb : (date1.isNone || date2.isNone) = true := by
    rcases h with h | h <;> simp [h]
  constructor
  · intro hlt
    simp [plot_vintage_comparison, hb, hlt]
  · intro hge
    have h0 : t.colLabels.getD 0 0 ∈ t.colLabels := getD_mem_of_lt _ _ (by omega)
    have h1 : t.colLabels.getD 1 0 ∈ t.colLabels := getD_mem_of_lt _ _ (by omega)
    simp only [List.getD_eq_getElem?_getD] at h0 h1
    simp [plot_vintage_comparison, hb, Nat.not_lt.mpr hge, h0, h1]

/-- Witness for `twoVintage_default_columns` on the example table, whose
stored columns are in descending order: with the first argument missing the
substituted columns are exactly the stored first two, unsorted. -/
theorem twoVintage_default_columns_witness :
    plot_vintage_comparison (some builderExampleTable) none (some 77) =
      some (getColumn builderExampleTable (builderExampleTable.colLabels.getD 0 0),
        getColumn builderExampleTable (builderExampleTable.colLabels.getD 1 0)) :=
  (twoVintage_default_columns builderExampleTable none (some 77)
    (Or.inl rfl)).2 (by decide)

/-- The key Python's `sorted(..., key=lambda tp: tp.date)` sorts by. -/
def tpLE (a b : TimePoint) : Prop := a.date ≤ b.date

instance : DecidableRel tpLE := fun a b => Nat.decLe a.date b.date

instance : IsTotal TimePoint tpLE := ⟨fun a b => Nat.le_total a.date b.date⟩

instance : IsTrans TimePoint tpLE := ⟨fun _ _ _ => Nat.le_trans⟩

/-- Model of `process_series_data` (series.py:72-86): sort the fetched time points by
date and emit the (date, value) pairs; absent when the series fetch
failed. -/
def process_series_data (sd? : Option SeriesData) : Option (List (Date × Value)) :=
  match sd? with
  | none => none
  | some sd =>
    some ((List.insertionSort tpLE sd.time_points).map fun tp => (tp.date, tp.value))

/-- Counterexample to C8 as stated: the sort does not remove duplicate
dates, so a series with two points on the same date is not strictly
increasing by date after the sort. -/
theorem latestSeries_duplicate_dates :
    process_series_data
        (some { time_points := [{ date := 5, value := 1 }, { date := 5, value := 2 }] }) =
      some [(5, 1), (5, 2)] ∧
    ¬ List.Sorted (· < ·) (([(5, 1), (5, 2)] : List (Date × Value)).map Prod.fst) := by
  constructor
  · decide
  · decide

/-- C8 (amended): after the sort the dates of the processed series are
non-decreasing, and they are strictly increasing whenever the fetched dates
are pairwise distinct (the sort itself never removes duplicates). -/
theorem latestSeries_sorted_spec (sd : SeriesData) :
    (((process_series_data (some sd)).getD []).map Prod.fst).Sorted (· ≤ ·) ∧
    ((sd.time_points.map TimePoint.date).Nodup →
      (((process_series_data (some sd)).getD []).map Prod.fst).Sorted (· < ·)) := by
  have hout : ((process_series_data (some sd)).getD []).map Prod.fst =
      (List.insertionSort tpLE sd.time_points).map TimePoint.date := by
    show ((List.insertionSort tpLE sd.time_points).map
      fun tp => (tp.date, tp.value)).map Prod.fst = _
    rw [List.map_map]
    rfl
  rw [hout]
  have hle : ((List.insertionSort tpLE sd.time_points).map TimePoint.date).Sorted (· ≤ ·) :=
    (List.sorted_insertionSort tpLE sd.time_points).map TimePoint.date (fun a b hab => hab)
  refine ⟨hle, fun hnd => ?_⟩
  have hperm : ((List.insertionSort tpLE sd.time_points).map TimePoint.date).Perm
      (sd.time_points.map TimePoint.date) :=
    (List.perm_insertionSort tpLE sd.time_points).map TimePoint.date
  exact hle.lt_of_le (hnd.perm hperm.symm)

/-- A latest-revision series with two distinct dates, delivered out of
order. -/
def seriesExample : SeriesData :=
  { time_points := [{ date := 20200201, value := 7 }, { date := 20200101, value := 3 }] }

/-- Witness for `latestSeries_sorted_spec`: on distinct out-of-order dates
the processed series is strictly increasing by date. -/
theorem latestSeries_sorted_spec_witness :
    (((process_series_data (some seriesExample)).getD []).map Prod.fst).Sorted (· < ·) :=
  (latestSeries_sorted_spec seriesExample).2 (by decide)

/-- Data of `plot_animated_vintages` (series.py:139-167): the long-form melt of
the column-sorted table, one (observation date, vintage date, value) record
per cell, column by column. -/
def plot_animated_vintages (t? : Option RevisionTable) :
    Option (List (Date × Date × Option Value)) :=
  match t? with
  | none => none
  | some t =>
    some ((List.range (sortCols t).colLabels.length).flatMap fun j =>
      ((sortCols t).rowLabels.zip (sortCols t).cells).map fun p =>
        (p.1, (sortCols t).colLabels.getD j 0, p.2.getD j none))

/-- The transform `style_vintages_table` as a state transition of the visualizer: it reads
`self.df_reversed` through a sorted copy and never assigns the slot. -/
def style_vintages_table_st (s : VizState) :
    VizState × Option (RevisionTable × List (List Bool)) :=
  (s, style_vintages_table s.df_reversed)

/-- The transform `plot_vintages_heatmap` as a state transition of the visualizer. -/
def plot_vintages_heatmap_st (s : VizState) :
    VizState × Option (List (List (Option Value))) :=
  (s, match s.df_reversed with
      | none => none
      | some t => some (plot_vintages_heatmap t))

/-- The transform `plot_animated_vintages` as a state transition of the visualizer. -/
def plot_animated_vintages_st (s : VizState) :
    VizState × Option (List (Date × Date × Option Value)) :=
  (s, plot_animated_vintages s.df_reversed)

/-- The transform `plot_vintage_comparison` as a state transition of the visualizer: it
operates on a copy (`df_str = self.df_reversed.copy()`). -/
def plot_vintage_comparison_st (s : VizState) (date1 date2 : Option Date) :
    VizState × Option (List (Date × Option Value) × List (Date × Option Value)) :=
  (s, plot_vintage_comparison s.df_reversed date1 date2)

/-- The transform `plot_vintage_differences` as a state transition of the visualizer. -/
def plot_vintage_differences_st (s : VizState) :
    VizState × Option (List (Date × Option Value)) :=
  (s, match s.df_reversed with
      | none => none
      | some t => some (plot_vintage_differences t))

/-- C10: every transform reads the stored revision table only through a
sorted or string-keyed copy and never assigns any slot of the visualizer, so
the state — in particular the stored table — is identical before and after
any transform call. -/
theorem transforms_preserve_state (s : VizState) (date1 date2 : Option Date) :
    (style_vintages_table_st s).1 = s ∧
    (plot_vintages_heatmap_st s).1 = s ∧
    (plot_animated_vintages_st s).1 = s ∧
    (plot_vintage_comparison_st s date1 date2).1 = s ∧
    (plot_vintage_differences_st s).1 = s :=
  ⟨rfl, rfl, rfl, rfl, rfl⟩
